import Mathlib

/-!
Verification of the adapter execution and result-normalization protocol of
`lintrunner-adapters`: a shallow embedding of the process runner
(`lintrunner_adapters/_common/lintrunner_common.py`), the message model,
several adapters (`black_isort_linter.py`, `grep_linter.py`,
`flake8_linter.py`, `clippy_linter.py`, `ruff_linter.py`,
`bandit_linter.py`) and the SARIF converters
(`lintrunner_adapters/tools/convert_to_sarif.py` and the legacy copy
`tools/convert_to_sarif.py`), together with proofs and refutations of the
specified properties.

External subprocesses are modelled by their observable outcome: either a
completed process with captured stdout, or one of the exception kinds the
Python code distinguishes (`subprocess.TimeoutExpired`, `OSError`,
`subprocess.CalledProcessError`).  File contents and byte strings are
modelled as `String`; filesystem paths are lists of path components.
-/

/-- `LintSeverity` from `lintrunner_common.py`: a closed four-value enum. -/
inductive LintSeverity
  | error
  | warning
  | advice
  | disabled
deriving DecidableEq, Repr

/-- The string value of each `LintSeverity` member (it is a `str` enum). -/
def LintSeverity.toValue : LintSeverity → String
  | .error => "error"
  | .warning => "warning"
  | .advice => "advice"
  | .disabled => "disabled"

/-- `LintMessage` from `lintrunner_common.py`: the normalized lint record.
Its nine fields appear in the dataclass declaration order. -/
structure LintMessage where
  path : Option String
  line : Option Nat
  char : Option Nat
  code : String
  severity : LintSeverity
  name : String
  original : Option String
  replacement : Option String
  description : Option String
deriving DecidableEq, Repr

/-- A JSON value as produced when serializing a `LintMessage` record:
`json.dumps` maps `None` to `null`, strings (including the `str`-enum
severity) to JSON strings and ints to JSON numbers. -/
inductive JsonValue
  | null
  | str (s : String)
  | num (n : Nat)
deriving DecidableEq, Repr

/-- Serialization of an optional string field: `None` becomes JSON null. -/
def jsonOfStrOpt : Option String → JsonValue
  | none => JsonValue.null
  | some s => JsonValue.str s

/-- Serialization of an optional int field: `None` becomes JSON null. -/
def jsonOfNatOpt : Option Nat → JsonValue
  | none => JsonValue.null
  | some n => JsonValue.num n

/-- `LintMessage.asdict` composed with `json.dumps` (from
`LintMessage.display`): the emitted JSON object, as an ordered list of
key/value pairs.  `dataclasses.asdict` lists the fields in declaration
order and `json.dumps` keeps dict insertion order. -/
def LintMessage.asdict (m : LintMessage) : List (String × JsonValue) :=
  [("path", jsonOfStrOpt m.path),
   ("line", jsonOfNatOpt m.line),
   ("char", jsonOfNatOpt m.char),
   ("code", JsonValue.str m.code),
   ("severity", JsonValue.str m.severity.toValue),
   ("name", JsonValue.str m.name),
   ("original", jsonOfStrOpt m.original),
   ("replacement", jsonOfStrOpt m.replacement),
   ("description", jsonOfStrOpt m.description)]

/-- Key lookup in the serialized object. -/
def jsonLookup (key : String) : List (String × JsonValue) → Option JsonValue
  | [] => none
  | kv :: rest => if kv.1 = key then some kv.2 else jsonLookup key rest

/-- Outcome of one `_run_command` invocation observed by `run_command`:
either the completed process (`subprocess.run` returned) or a raised
`subprocess.TimeoutExpired`. -/
inductive RunAttempt (α : Type)
  | completed (result : α)
  | timedOut
deriving DecidableEq, Repr

/-- The `while True` loop of `run_command` in `lintrunner_common.py`.
`tool i` is the outcome of the `i`-th `_run_command` invocation (the tool
double); `attempt` counts invocations made so far and `remaining` is
`remaining_retries`.  Returns the surfaced outcome (a `timedOut` result
models the re-raised `TimeoutExpired`) together with the total number of
subprocess invocations. -/
def run_command_loop {α : Type} (tool : Nat → RunAttempt α) :
    Nat → Nat → RunAttempt α × Nat
  | attempt, remaining =>
    match tool attempt with
    | .completed r => (.completed r, attempt + 1)
    | .timedOut =>
      match remaining with
      | 0 => (.timedOut, attempt + 1)
      | n + 1 => run_command_loop tool (attempt + 1) n

/-- `run_command(args, retries=retries, ...)`: starts the loop with
`remaining_retries = retries` and no invocations made yet. -/
def run_command {α : Type} (tool : Nat → RunAttempt α) (retries : Nat) :
    RunAttempt α × Nat :=
  run_command_loop tool 0 retries

theorem run_command_loop_all_timeout {α : Type} (tool : Nat → RunAttempt α)
    (h : ∀ i, tool i = RunAttempt.timedOut) :
    ∀ remaining attempt,
      run_command_loop tool attempt remaining = (RunAttempt.timedOut, attempt + remaining + 1) := by
  intro remaining
  induction remaining with
  | zero =>
    intro attempt
    simp [run_command_loop, h attempt]
  | succ n ih =>
    intro attempt
    rw [run_command_loop]
    simp only [h attempt]
    rw [ih (attempt + 1)]
    congr 1
    omega

/-- C1: for every retry budget `r ≥ 0`, when every subprocess invocation
times out, `run_command` invokes the subprocess exactly `r + 1` times and
then surfaces the timeout to the caller by re-raising it (modelled by the
`timedOut` outcome). -/
theorem c1_run_command_retry_bound {α : Type} (tool : Nat → RunAttempt α)
    (retries : Nat) (h : ∀ i, tool i = RunAttempt.timedOut) :
    run_command tool retries = (RunAttempt.timedOut, retries + 1) := by
  unfold run_command
  rw [run_command_loop_all_timeout tool h retries 0]
  congr 1
  omega

/-- Witness for C1 at a concrete always-timing-out tool double and retry
budget 3: exactly 4 invocations, outcome surfaced as a timeout. -/
theorem c1_run_command_retry_bound_witness :
    run_command (fun _ => (RunAttempt.timedOut : RunAttempt Unit)) 3 =
      (RunAttempt.timedOut, 4) :=
  c1_run_command_retry_bound (fun _ => RunAttempt.timedOut) 3 (fun _ => rfl)

/-- C9: the serialized per-record output of a `LintMessage` is a single
JSON object with exactly the nine fields `path, line, char, code,
severity, name, original, replacement, description`, in that order, and
every absent (optional) value serializes as JSON null. -/
theorem c9_lint_message_wire_format (m : LintMessage) :
    (m.asdict.map Prod.fst) =
      ["path", "line", "char", "code", "severity", "name",
       "original", "replacement", "description"]
    ∧ (jsonLookup "path" m.asdict = some JsonValue.null ↔ m.path = none)
    ∧ (jsonLookup "line" m.asdict = some JsonValue.null ↔ m.line = none)
    ∧ (jsonLookup "char" m.asdict = some JsonValue.null ↔ m.char = none)
    ∧ (jsonLookup "original" m.asdict = some JsonValue.null ↔ m.original = none)
    ∧ (jsonLookup "replacement" m.asdict = some JsonValue.null ↔ m.replacement = none)
    ∧ (jsonLookup "description" m.asdict = some JsonValue.null ↔ m.description = none)
    ∧ jsonLookup "code" m.asdict = some (JsonValue.str m.code)
    ∧ jsonLookup "severity" m.asdict = some (JsonValue.str m.severity.toValue)
    ∧ jsonLookup "name" m.asdict = some (JsonValue.str m.name) := by
  have hs : ∀ o : Option String, (jsonOfStrOpt o = JsonValue.null ↔ o = none) := by
    intro o; cases o <;> simp [jsonOfStrOpt]
  have hn : ∀ o : Option Nat, (jsonOfNatOpt o = JsonValue.null ↔ o = none) := by
    intro o; cases o <;> simp [jsonOfNatOpt]
  refine ⟨rfl, ?_, ?_, ?_, ?_, ?_, ?_, rfl, rfl, rfl⟩ <;>
    simp [LintMessage.asdict, jsonLookup, hs, hn]

/-- Outcome of one `run_command` call as observed by an adapter: the
completed process output, or one of the exception kinds raised
(`OSError`, `subprocess.CalledProcessError` with its captured data, or
`subprocess.TimeoutExpired` after the retry budget is exhausted). -/
inductive SubprocessOutcome
  | ok (stdout : String)
  | osError (desc : String)
  | calledProcessError (returncode : Int) (cmd stderr stdout : String)
  | timeoutExpired
deriving DecidableEq, Repr

/-- The shared `"COMMAND (exit code ...)"` description template used by the
adapters for a `CalledProcessError`, with `(empty)` replacing blank
streams (Python `.strip() or "(empty)"`). -/
def commandFailedDescription (returncode : Int) (cmd stderr stdout : String) : String :=
  "COMMAND (exit code " ++ toString returncode ++ ")\n" ++ cmd ++
    "\n\nSTDERR\n" ++ (if stderr.trim = "" then "(empty)" else stderr.trim) ++
    "\n\nSTDOUT\n" ++ (if stdout.trim = "" then "(empty)" else stdout.trim)

/-- `black_isort_linter.LINTER_CODE`. -/
def BLACK_ISORT_LINTER_CODE : String := "BLACK-ISORT"

/-- The synthetic timeout message of `black_isort_linter.check_file`. -/
def blackIsortTimeoutMessage (filename : String) : LintMessage :=
  { path := some filename, line := none, char := none,
    code := BLACK_ISORT_LINTER_CODE, severity := LintSeverity.error,
    name := "timeout", original := none, replacement := none,
    description := some ("black-isort timed out while trying to process a file. " ++
      "Please report an issue in pytorch/pytorch with the " ++
      "label 'module: lint'") }

/-- The synthetic command-failed message of `black_isort_linter.check_file`. -/
def blackIsortCommandFailedMessage (filename desc : String) : LintMessage :=
  { path := some filename, line := none, char := none,
    code := BLACK_ISORT_LINTER_CODE, severity := LintSeverity.advice,
    name := "command-failed", original := none, replacement := none,
    description := some desc }

/-- `black_isort_linter.check_file`: reads the original file bytes, pipes
them through `isort` and then `black` (each a `run_command` call whose
outcome the corresponding function argument gives as a function of the
piped-in content), and emits a format message only when the final output
differs from the original.  Caught exceptions become synthetic messages. -/
def black_isort_check_file (filename original : String)
    (isort black : String → SubprocessOutcome) : List LintMessage :=
  match isort original with
  | .timeoutExpired => [blackIsortTimeoutMessage filename]
  | .osError d =>
    [blackIsortCommandFailedMessage filename ("Failed due to OSError:\n" ++ d)]
  | .calledProcessError rc cmd se so =>
    [blackIsortCommandFailedMessage filename (commandFailedDescription rc cmd se so)]
  | .ok importSorted =>
    match black importSorted with
    | .timeoutExpired => [blackIsortTimeoutMessage filename]
    | .osError d =>
      [blackIsortCommandFailedMessage filename ("Failed due to OSError:\n" ++ d)]
    | .calledProcessError rc cmd se so =>
      [blackIsortCommandFailedMessage filename (commandFailedDescription rc cmd se so)]
    | .ok replacement =>
      if original = replacement then []
      else
        [{ path := some filename, line := none, char := none,
           code := BLACK_ISORT_LINTER_CODE, severity := LintSeverity.warning,
           name := "format", original := some original,
           replacement := some replacement,
           description := some "Run `lintrunner -a` to apply this patch." }]

/-- The run-level failure message of `grep_linter.lint_file`
(`path=None`). -/
def grepCommandFailedMessage (linterName desc : String) : LintMessage :=
  { path := none, line := none, char := none,
    code := linterName, severity := LintSeverity.error,
    name := "command-failed", original := none, replacement := none,
    description := some desc }

/-- `grep_linter.lint_file`: parses one `grep -nEHI` match line
(`file:line:text`), optionally consults an allowlist grep (outcome
`allowGrep`: the raised exception's description, or the returncode), and
when a replace pattern is given reads the file (`fileContent`) and runs
`sed -r` over it (outcome `sedRun`: the raised exception's description,
or the captured stdout), emitting the finding with the file content as
`original` and the sed output as `replacement` — without comparing them. -/
def grep_lint_file (matchingLine allowlistPattern replacePattern
    linterName errorName errorDescription : String)
    (allowGrep : Except String Int) (fileContent : String)
    (sedRun : Except String String) : Option LintMessage :=
  let split := matchingLine.splitOn ":"
  let filename := split.headD ""
  let afterAllowlist : Option LintMessage :=
    if replacePattern = "" then
      some { path := some filename,
             line := if split.length > 1 then (split.getD 1 "").toNat? else none,
             char := none, code := linterName, severity := LintSeverity.error,
             name := errorName, original := none, replacement := none,
             description := some errorDescription }
    else
      match sedRun with
      | .error d => some (grepCommandFailedMessage linterName d)
      | .ok sedOut =>
        some { path := some filename,
               line := if split.length > 1 then (split.getD 1 "").toNat? else none,
               char := none, code := linterName, severity := LintSeverity.error,
               name := errorName, original := some fileContent,
               replacement := some sedOut,
               description := some errorDescription }
  if allowlistPattern = "" then afterAllowlist
  else
    match allowGrep with
    | .error d => some (grepCommandFailedMessage linterName d)
    | .ok rc => if rc = 0 then none else afterAllowlist

/-- `ruff_linter.LINTER_CODE`. -/
def RUFF_LINTER_CODE : String := "RUFF"

/-- The command-failed message of `ruff_linter.check_files` (`path=None`). -/
def ruffCommandFailedMessage (desc : String) : LintMessage :=
  { path := none, line := none, char := none,
    code := RUFF_LINTER_CODE, severity := LintSeverity.error,
    name := "command-failed", original := none, replacement := none,
    description := some desc }

/-- `ruff_linter.check_files`: runs `ruff check` with a deadline
(`timeout=timeout`) and catches only `OSError` and
`subprocess.CalledProcessError`; a `subprocess.TimeoutExpired` is not
caught and propagates out of the adapter (the `Except.error` result).
The JSON vulnerability parsing of the success branch is abstracted by
`parseVulns` (it builds the per-finding messages from the captured
stdout and does not affect the exception structure). -/
def ruff_check_files (outcome : SubprocessOutcome)
    (parseVulns : String → List LintMessage) : Except Unit (List LintMessage) :=
  match outcome with
  | .osError d => .ok [ruffCommandFailedMessage ("Failed due to OSError:\n" ++ d)]
  | .calledProcessError rc cmd se so =>
    .ok [ruffCommandFailedMessage (commandFailedDescription rc cmd se so)]
  | .timeoutExpired => .error ()
  | .ok out => .ok (parseVulns out)

/-- `bandit_linter.LINTER_CODE`. -/
def BANDIT_LINTER_CODE : String := "BANDIT"

/-- `bandit_linter.command_failed_message`: `name="command-failed"`, the
adapter code, and the exception class name in the description. -/
def banditCommandFailedMessage (filename errClassName errText : String) : LintMessage :=
  { path := some filename, line := none, char := none,
    code := BANDIT_LINTER_CODE, severity := LintSeverity.error,
    name := "command-failed", original := none, replacement := none,
    description := some ("Failed due to " ++ errClassName ++ ":\n" ++ errText) }

/-- `bandit_linter.check_file`: runs bandit with a deadline under a bare
`except Exception` handler, so every raised exception — a
`TimeoutExpired` included — becomes a `command_failed_message` (never a
`name="timeout"` message).  Payload parsing of the success branch is
abstracted by `parsePayload`. -/
def bandit_check_file (filename : String) (outcome : SubprocessOutcome)
    (parsePayload : String → List LintMessage) : List LintMessage :=
  match outcome with
  | .ok out => parsePayload out
  | .osError d => [banditCommandFailedMessage filename "OSError" d]
  | .calledProcessError rc cmd se so =>
    [banditCommandFailedMessage filename "CalledProcessError"
      (commandFailedDescription rc cmd se so)]
  | .timeoutExpired => [banditCommandFailedMessage filename "TimeoutExpired" ""]

/-- `flake8_linter.get_issue_severity`: a total function from the native
code string to a severity, with `WARNING` as the default. -/
def get_issue_severity (code : String) : LintSeverity :=
  if ["B9", "C4", "C9", "E2", "E3", "E5", "T400", "T49"].any
      (fun x => x.isPrefixOf code) then
    LintSeverity.advice
  else if ["F821", "E999"].any (fun x => x.isPrefixOf code) then
    LintSeverity.error
  else
    LintSeverity.warning

/-- `clippy_linter.SEVERITIES`: a dict from the optional rustc diagnostic
level to a severity (`None`, from `message.get("level")` on a missing
level, maps to `ADVICE`). -/
def CLIPPY_SEVERITIES : List (Option String × LintSeverity) :=
  [(some "error", LintSeverity.error),
   (some "warning", LintSeverity.warning),
   (some "note", LintSeverity.advice),
   (some "help", LintSeverity.advice),
   (none, LintSeverity.advice)]

/-- Association-list lookup modelling a Python dict subscript: `none`
models the `KeyError` raised on an unmapped key. -/
def assocLookup {α β : Type} [DecidableEq α] : List (α × β) → α → Option β
  | [], _ => none
  | kv :: rest, k => if kv.1 = k then some kv.2 else assocLookup rest k

/-- `SEVERITIES[data["message"].get("level")]` in
`clippy_linter.check_cargo_toml`: a plain dict subscript, so an unmapped
level string raises `KeyError` (result `none`). -/
def clippySeverityLookup (level : Option String) : Option LintSeverity :=
  assocLookup CLIPPY_SEVERITIES level

/-- C3 counterexample: `grep_linter.lint_file`, given a nonempty replace
pattern whose `sed -r` output equals the file content verbatim, emits a
Message whose `original` equals its `replacement` (here both are
`"x=1\n"`), refuting the claim that no adapter ever does. -/
theorem c3_grep_emits_equal_original_replacement :
    (grep_lint_file "f.py:1:x=1" "" "s/a/a/" "GREP" "no-x" "do not use x"
        (Except.ok 1) "x=1\n" (Except.ok "x=1\n")).map
      (fun m => (m.original, m.replacement)) =
      some (some "x=1\n", some "x=1\n") := by
  rfl

/-- C3 (amended): for the formatting-shape adapter `black_isort_linter`,
a file left unchanged by the isort-then-black pipeline yields zero
Messages, and no Message it emits has `original = replacement` other than
with both absent; `grep_linter` is exempt (it emits the grep finding with
`original = replacement` when the sed output equals the file). -/
theorem c3_noop_equality_suppression_amended :
    (∀ (filename original sorted : String)
        (isort black : String → SubprocessOutcome),
        isort original = SubprocessOutcome.ok sorted →
        black sorted = SubprocessOutcome.ok original →
        black_isort_check_file filename original isort black = [])
    ∧ (∀ (filename original : String) (isort black : String → SubprocessOutcome)
        (m : LintMessage), m ∈ black_isort_check_file filename original isort black →
        m.original = m.replacement → m.original = none) := by
  constructor
  · intro filename original sorted isort black h1 h2
    simp [black_isort_check_file, h1, h2]
  · intro filename original isort black m hm heq
    cases hio : isort original with
    | timeoutExpired =>
      simp [black_isort_check_file, hio] at hm; rw [hm]; rfl
    | osError d =>
      simp [black_isort_check_file, hio] at hm; rw [hm]; rfl
    | calledProcessError rc cmd se so =>
      simp [black_isort_check_file, hio] at hm; rw [hm]; rfl
    | ok so =>
      cases hbo : black so with
      | timeoutExpired =>
        simp [black_isort_check_file, hio, hbo] at hm; rw [hm]; rfl
      | osError d =>
        simp [black_isort_check_file, hio, hbo] at hm; rw [hm]; rfl
      | calledProcessError rc cmd se so' =>
        simp [black_isort_check_file, hio, hbo] at hm; rw [hm]; rfl
      | ok rep =>
        by_cases hor : original = rep
        · subst hor
          simp [black_isort_check_file, hio, hbo] at hm
        · simp [black_isort_check_file, hio, hbo, hor] at hm
          rw [hm] at heq
          simp at heq
          exact absurd heq hor

/-- Witness for C3 (amended): an identity pipeline on a concrete file
yields no Message, and the timeout Message (whose `original` and
`replacement` coincide) has `original = none`. -/
theorem c3_noop_equality_suppression_amended_witness :
    black_isort_check_file "a.py" "x = 1\n"
        (fun s => SubprocessOutcome.ok s) (fun s => SubprocessOutcome.ok s) = []
    ∧ (blackIsortTimeoutMessage "a.py").original = none :=
  ⟨c3_noop_equality_suppression_amended.1 "a.py" "x = 1\n" "x = 1\n"
      (fun s => SubprocessOutcome.ok s) (fun s => SubprocessOutcome.ok s) rfl rfl,
   c3_noop_equality_suppression_amended.2 "a.py" "x = 1\n"
      (fun _ => SubprocessOutcome.timeoutExpired) (fun s => SubprocessOutcome.ok s)
      (blackIsortTimeoutMessage "a.py") (by simp [black_isort_check_file]) rfl⟩

/-- C4 counterexample: `ruff_linter.check_files` runs its subprocess with
a deadline but catches only `OSError` and `CalledProcessError`, so an
exhausted-retries timeout raises past the adapter boundary (`Except.error`)
instead of yielding a `name="timeout"` Message. -/
theorem c4_ruff_timeout_escapes_adapter :
    ruff_check_files SubprocessOutcome.timeoutExpired (fun _ => []) =
      Except.error () := by
  rfl

/-- C4 (amended): `black_isort_linter.check_file` surfaces an exhausted
timeout of either pipeline stage as exactly one Message with
`name="timeout"` referencing the file, without raising; but
`bandit_linter.check_file` surfaces it as a `name="command-failed"`
Message, and `ruff_linter.check_files` does not catch it at all — the
timeout propagates past the adapter boundary. -/
theorem c4_timeout_surfacing_amended :
    (∀ (filename original : String) (isort black : String → SubprocessOutcome),
        isort original = SubprocessOutcome.timeoutExpired →
        black_isort_check_file filename original isort black =
          [blackIsortTimeoutMessage filename])
    ∧ (∀ (filename original sorted : String)
        (isort black : String → SubprocessOutcome),
        isort original = SubprocessOutcome.ok sorted →
        black sorted = SubprocessOutcome.timeoutExpired →
        black_isort_check_file filename original isort black =
          [blackIsortTimeoutMessage filename])
    ∧ (∀ filename, (blackIsortTimeoutMessage filename).name = "timeout"
        ∧ (blackIsortTimeoutMessage filename).path = some filename)
    ∧ (∀ parseVulns, ruff_check_files SubprocessOutcome.timeoutExpired parseVulns =
        Except.error ())
    ∧ (∀ filename parsePayload,
        bandit_check_file filename SubprocessOutcome.timeoutExpired parsePayload =
          [banditCommandFailedMessage filename "TimeoutExpired" ""]
        ∧ (banditCommandFailedMessage filename "TimeoutExpired" "").name =
            "command-failed") := by
  refine ⟨?_, ?_, ?_, ?_, ?_⟩
  · intro filename original isort black h1
    simp [black_isort_check_file, h1]
  · intro filename original sorted isort black h1 h2
    simp [black_isort_check_file, h1, h2]
  · intro filename; exact ⟨rfl, rfl⟩
  · intro parseVulns; rfl
  · intro filename parsePayload; exact ⟨rfl, rfl⟩

/-- Witness for C4 (amended): the timeout of each stage at concrete inputs. -/
theorem c4_timeout_surfacing_amended_witness :
    black_isort_check_file "a.py" "x"
        (fun _ => SubprocessOutcome.timeoutExpired) (fun s => SubprocessOutcome.ok s) =
      [blackIsortTimeoutMessage "a.py"]
    ∧ black_isort_check_file "b.py" "y"
        (fun s => SubprocessOutcome.ok s) (fun _ => SubprocessOutcome.timeoutExpired) =
      [blackIsortTimeoutMessage "b.py"] :=
  ⟨c4_timeout_surfacing_amended.1 "a.py" "x"
      (fun _ => SubprocessOutcome.timeoutExpired) (fun s => SubprocessOutcome.ok s) rfl,
   c4_timeout_surfacing_amended.2.1 "b.py" "y" "y"
      (fun s => SubprocessOutcome.ok s) (fun _ => SubprocessOutcome.timeoutExpired)
      rfl rfl⟩

/-- C5 counterexample: the clippy adapter looks its severity up by a plain
dict subscript, so the rustc diagnostic level `"failure-note"` (or any
other unmapped level string) has no severity — the lookup raises
`KeyError` instead of returning one of the four severities. -/
theorem c5_clippy_severity_lookup_not_total :
    clippySeverityLookup (some "failure-note") = none := by
  rfl

/-- C5 (amended): `flake8_linter.get_issue_severity` is total — every
code string maps to exactly one of the four severities (`WARNING` being
the documented default) — but the clippy adapter's `SEVERITIES` dict
subscript succeeds only on the five mapped keys (`error`, `warning`,
`note`, `help` and a missing level) and raises `KeyError` on every other
level string. -/
theorem c5_severity_totality_amended :
    (∀ code : String,
        get_issue_severity code = LintSeverity.advice
        ∨ get_issue_severity code = LintSeverity.error
        ∨ get_issue_severity code = LintSeverity.warning)
    ∧ (∀ level : Option String, (clippySeverityLookup level).isSome ↔
        (level = some "error" ∨ level = some "warning" ∨ level = some "note"
          ∨ level = some "help" ∨ level = none)) := by
  constructor
  · intro code
    unfold get_issue_severity
    split
    · exact Or.inl rfl
    · split
      · exact Or.inr (Or.inl rfl)
      · exact Or.inr (Or.inr rfl)
  · intro level
    cases level with
    | none => simp [clippySeverityLookup, assocLookup, CLIPPY_SEVERITIES]
    | some s =>
      by_cases h1 : s = "error"
      · subst h1; simp [clippySeverityLookup, assocLookup, CLIPPY_SEVERITIES]
      · by_cases h2 : s = "warning"
        · subst h2; simp [clippySeverityLookup, assocLookup, CLIPPY_SEVERITIES]
        · by_cases h3 : s = "note"
          · subst h3; simp [clippySeverityLookup, assocLookup, CLIPPY_SEVERITIES]
          · by_cases h4 : s = "help"
            · subst h4; simp [clippySeverityLookup, assocLookup, CLIPPY_SEVERITIES]
            · have h1' : ¬("error" = s) := fun h => h1 h.symm
              have h2' : ¬("warning" = s) := fun h => h2 h.symm
              have h3' : ¬("note" = s) := fun h => h3 h.symm
              have h4' : ¬("help" = s) := fun h => h4 h.symm
              simp [clippySeverityLookup, assocLookup, CLIPPY_SEVERITIES,
                h1, h2, h3, h4, h1', h2', h3', h4']

/-- One line of lintrunner JSON input to the SARIF converter
(`tools/convert_to_sarif.py`), with the fields the converter reads. -/
structure LintrunnerResult where
  path : Option String
  line : Option Nat
  char : Option Nat
  code : String
  severity : String
  name : String
  description : String
deriving DecidableEq, Repr

/-- `format_rule_name` of `lintrunner_adapters/tools/convert_to_sarif.py`. -/
def format_rule_name (r : LintrunnerResult) : String :=
  r.code ++ "/" ++ r.name

/-- `severity_to_github_level` of the packaged converter
`lintrunner_adapters/tools/convert_to_sarif.py`: `advice` and `disabled`
fold to `note`, everything else passes through. -/
def severity_to_github_level (severity : String) : String :=
  if severity = "advice" ∨ severity = "disabled" then "note" else severity

/-- `severity_to_github_level` of the legacy converter copy
`tools/convert_to_sarif.py`: `advice` and `disabled` fold to `warning`. -/
def legacy_severity_to_github_level (severity : String) : String :=
  if severity = "advice" ∨ severity = "disabled" then "warning" else severity

/-- The Python expression `value or 1` applied to an optional int (`null`
and `0` are both falsy). -/
def orOne : Option Nat → Nat
  | none => 1
  | some n => if n = 0 then 1 else n

/-- The `result` object built by `parse_single_lintrunner_result`,
flattened to the fields the converter writes. -/
structure SarifResult where
  ruleId : String
  level : String
  messageText : String
  artifactUri : Option String
  startLine : Nat
  startColumn : Nat
deriving DecidableEq, Repr

/-- The rule descriptor built by `parse_single_lintrunner_result` (the
outer dict key `rule["id"]` always equals the inner rule's `id`, so one
`id` field stands for both). -/
structure SarifRule where
  id : String
  name : String
  shortDescription : String
  fullDescription : String
  defaultLevel : String
deriving DecidableEq, Repr

/-- `parse_single_lintrunner_result` of
`lintrunner_adapters/tools/convert_to_sarif.py`. -/
def parse_single_lintrunner_result (r : LintrunnerResult) :
    SarifResult × SarifRule :=
  let artifactUri : Option String :=
    match r.path with
    | none => none
    | some p => some (if p.startsWith "/" then "file://" ++ p else p)
  ({ ruleId := format_rule_name r,
     level := severity_to_github_level r.severity,
     messageText := r.description,
     artifactUri := artifactUri,
     startLine := orOne r.line,
     startColumn := orOne r.char },
   { id := format_rule_name r,
     name := format_rule_name r,
     shortDescription := format_rule_name r,
     fullDescription := format_rule_name r ++ "\n" ++ r.description,
     defaultLevel := severity_to_github_level r.severity })

/-- The `result` part of one parsed input. -/
def resultOf (r : LintrunnerResult) : SarifResult :=
  (parse_single_lintrunner_result r).1

/-- The rule-descriptor part of one parsed input. -/
def ruleOf (r : LintrunnerResult) : SarifRule :=
  (parse_single_lintrunner_result r).2

/-- First rule with the given `id` in the modelled rules dict. -/
def findRule : List SarifRule → String → Option SarifRule
  | [], _ => none
  | ru :: rest, k => if ru.id = k then some ru else findRule rest k

/-- `rules[rule["id"]] = rule["rule"]`: Python dict assignment keyed by
the formatted rule name — overwrite in place when the key exists
(keeping insertion order), append otherwise. -/
def dictInsert (rules : List SarifRule) (rule : SarifRule) : List SarifRule :=
  match findRule rules rule.id with
  | some _ => rules.map (fun ru => if ru.id = rule.id then rule else ru)
  | none => rules ++ [rule]

/-- One `run` of the produced SARIF document. -/
structure SarifRun where
  rules : List SarifRule
  results : List SarifResult
deriving DecidableEq, Repr

/-- The produced SARIF document. -/
structure Sarif where
  schema : String
  version : String
  runs : List SarifRun
deriving DecidableEq, Repr

/-- One iteration of the `for lintrunner_json in lintrunner_results`
loop of `produce_sarif`: append the result, assign the rule. -/
def produce_sarif_step (acc : List SarifRule × List SarifResult)
    (r : LintrunnerResult) : List SarifRule × List SarifResult :=
  (dictInsert acc.1 (ruleOf r), acc.2 ++ [resultOf r])

/-- `produce_sarif` of `lintrunner_adapters/tools/convert_to_sarif.py`:
the single-run SARIF document with the accumulated rules and results. -/
def produce_sarif (inputs : List LintrunnerResult) : Sarif :=
  let acc := inputs.foldl produce_sarif_step ([], [])
  { schema := "https://json.schemastore.org/sarif-2.1.0.json",
    version := "2.1.0",
    runs := [{ rules := acc.1, results := acc.2 }] }

/-- One step of first-occurrence key deduplication (the key order of a
Python dict under repeated assignment). -/
def dedupStep (ks : List String) (k : String) : List String :=
  if k ∈ ks then ks else ks ++ [k]

/-- First-occurrence deduplication of a key list. -/
def dedupKeys (l : List String) : List String :=
  l.foldl dedupStep []

/-- The last input whose formatted rule name is `k`. -/
def lastWithKey (k : String) : List LintrunnerResult → Option LintrunnerResult
  | [] => none
  | r :: rest =>
    match lastWithKey k rest with
    | some x => some x
    | none => if format_rule_name r = k then some r else none

/-- The claim's rule-identity metric, following the spec's words: the
distinct `(code, name)` pairs occurring in the input, in first-occurrence
order (to be compared with the converter's rules, which are keyed by the
formatted string `code ++ "/" ++ name` instead). -/
def specDistinctCodeNamePairs (inputs : List LintrunnerResult) :
    List (String × String) :=
  inputs.foldl
    (fun acc r => if (r.code, r.name) ∈ acc then acc else acc ++ [(r.code, r.name)]) []

theorem findRule_map_overwrite (rules : List SarifRule) (ru : SarifRule)
    (k : String) :
    findRule (rules.map (fun x => if x.id = ru.id then ru else x)) k =
      if k = ru.id then (findRule rules ru.id).map (fun _ => ru)
      else findRule rules k := by
  induction rules with
  | nil => by_cases hk : k = ru.id <;> simp [findRule, hk]
  | cons x xs ih =>
    by_cases hx : x.id = ru.id
    · by_cases hk : k = ru.id
      · subst hk
        simp [findRule, hx]
      · have hruk : ¬(ru.id = k) := fun h => hk h.symm
        have hxk : ¬(x.id = k) := fun h => hk (hx.symm.trans h).symm
        simp [findRule, hx, hk, hruk, hxk, ih]
    · by_cases hxk : x.id = k
      · subst hxk
        simp [findRule, hx]
      · simp [findRule, hx, hxk, ih]

theorem findRule_append_one (rules : List SarifRule) (ru : SarifRule)
    (k : String) :
    findRule (rules ++ [ru]) k =
      match findRule rules k with
      | some x => some x
      | none => if ru.id = k then some ru else none := by
  induction rules with
  | nil => simp [findRule]
  | cons x xs ih =>
    by_cases hxk : x.id = k <;> simp [findRule, hxk, ih]

theorem dictInsert_findRule (rules : List SarifRule) (ru : SarifRule)
    (k : String) :
    findRule (dictInsert rules ru) k =
      if k = ru.id then some ru else findRule rules k := by
  unfold dictInsert
  cases h : findRule rules ru.id with
  | some x =>
    rw [findRule_map_overwrite]
    by_cases hk : k = ru.id <;> simp [hk, h]
  | none =>
    rw [findRule_append_one]
    by_cases hk : k = ru.id
    · subst hk
      simp [h]
    · have : ¬(ru.id = k) := fun hh => hk hh.symm
      cases h2 : findRule rules k <;> simp [hk, this]

theorem findRule_isSome_iff (rules : List SarifRule) (k : String) :
    (findRule rules k).isSome ↔ k ∈ rules.map (fun ru => ru.id) := by
  induction rules with
  | nil => simp [findRule]
  | cons x xs ih =>
    by_cases hxk : x.id = k
    · simp [findRule, hxk]
    · have : ¬(k = x.id) := fun h => hxk h.symm
      simp [findRule, hxk, ih, this]

theorem dictInsert_ids (rules : List SarifRule) (ru : SarifRule) :
    (dictInsert rules ru).map (fun x => x.id) =
      dedupStep (rules.map (fun x => x.id)) ru.id := by
  unfold dictInsert dedupStep
  cases h : findRule rules ru.id with
  | some x =>
    have hmem : ru.id ∈ rules.map (fun x => x.id) := by
      rw [← findRule_isSome_iff, h]; rfl
    rw [if_pos hmem, List.map_map]
    apply List.map_congr_left
    intro a _
    by_cases ha : a.id = ru.id <;> simp [ha]
  | none =>
    have hmem : ¬(ru.id ∈ rules.map (fun x => x.id)) := by
      rw [← findRule_isSome_iff, h]; simp
    rw [if_neg hmem]
    simp

theorem produce_sarif_fold_results (inputs : List LintrunnerResult) :
    ∀ acc : List SarifRule × List SarifResult,
      (inputs.foldl produce_sarif_step acc).2 = acc.2 ++ inputs.map resultOf := by
  induction inputs with
  | nil => intro acc; simp
  | cons r rest ih =>
    intro acc
    simp only [List.foldl_cons, ih, List.map_cons]
    simp [produce_sarif_step, List.append_assoc]

theorem produce_sarif_fold_ids (inputs : List LintrunnerResult) :
    ∀ acc : List SarifRule × List SarifResult,
      ((inputs.foldl produce_sarif_step acc).1).map (fun x => x.id) =
        (inputs.map format_rule_name).foldl dedupStep
          (acc.1.map (fun x => x.id)) := by
  induction inputs with
  | nil => intro acc; simp
  | cons r rest ih =>
    intro acc
    simp only [List.foldl_cons, ih, List.map_cons]
    congr 1
    exact dictInsert_ids acc.1 (ruleOf r)

theorem produce_sarif_fold_lookup (inputs : List LintrunnerResult) :
    ∀ (acc : List SarifRule × List SarifResult) (k : String),
      findRule (inputs.foldl produce_sarif_step acc).1 k =
        match lastWithKey k inputs with
        | some r => some (ruleOf r)
        | none => findRule acc.1 k := by
  induction inputs with
  | nil => intro acc k; simp [lastWithKey]
  | cons r rest ih =>
    intro acc k
    simp only [List.foldl_cons, ih]
    cases hrest : lastWithKey k rest with
    | some x => simp [lastWithKey, hrest]
    | none =>
      simp only [lastWithKey, hrest]
      show findRule (produce_sarif_step acc r).1 k = _
      unfold produce_sarif_step
      rw [dictInsert_findRule]
      have hid : (ruleOf r).id = format_rule_name r := rfl
      by_cases hk : format_rule_name r = k
      · rw [if_pos hk, if_pos (by rw [hid, hk])]
      · rw [if_neg hk, if_neg (by rw [hid]; exact fun h => hk h.symm)]

theorem dedup_foldl_nodup (l : List String) :
    ∀ ks : List String, ks.Nodup → (l.foldl dedupStep ks).Nodup := by
  induction l with
  | nil => intro ks h; simpa using h
  | cons x xs ih =>
    intro ks h
    simp only [List.foldl_cons]
    apply ih
    unfold dedupStep
    by_cases hx : x ∈ ks
    · simpa [hx] using h
    · rw [if_neg hx]
      simp [List.nodup_append, h, hx]

theorem dedup_foldl_mem (l : List String) :
    ∀ (ks : List String) (a : String),
      a ∈ l.foldl dedupStep ks ↔ a ∈ ks ∨ a ∈ l := by
  induction l with
  | nil => intro ks a; simp
  | cons x xs ih =>
    intro ks a
    simp only [List.foldl_cons, ih]
    unfold dedupStep
    by_cases hx : x ∈ ks
    · by_cases hax : a = x
      · subst hax
        simp [hx]
      · simp [hx, hax]
    · rw [if_neg hx]
      simp [or_assoc, List.mem_append]

/-- Input with `code="A/B"`, `name="C"`: its formatted rule key is
`"A/B/C"`. -/
def c2InputA : LintrunnerResult :=
  { path := some "/t.py", line := some 1, char := some 2, code := "A/B",
    severity := "error", name := "C", description := "d1" }

/-- Input with `code="A"`, `name="B/C"`: a different `(code, name)` pair
with the same formatted rule key `"A/B/C"`. -/
def c2InputB : LintrunnerResult :=
  { path := some "/t.py", line := some 3, char := some 4, code := "A",
    severity := "warning", name := "B/C", description := "d2" }

/-- C2 counterexample: rules are keyed by the formatted string
`code ++ "/" ++ name`, so the two distinct `(code, name)` pairs
`("A/B", "C")` and `("A", "B/C")` collapse into a single rule entry —
the rules array does not contain one entry per distinct pair. -/
theorem c2_distinct_pairs_collapse :
    (specDistinctCodeNamePairs [c2InputA, c2InputB]).length = 2
    ∧ (((produce_sarif [c2InputA, c2InputB]).runs.headD
        { rules := [], results := [] }).rules).length = 1 := by
  constructor <;> rfl

/-- C2 (amended): for every input sequence, the SARIF document of
`produce_sarif` has exactly one run; its results array is the parsed
inputs in input order (hence of the same length); its rules array has
exactly one entry per distinct formatted rule key `code ++ "/" ++ name`,
in first-occurrence order (distinct `(code, name)` pairs with equal
formatted keys collapse into one entry), with last-write-wins on the
rule metadata; and the empty input yields one run with zero results and
zero rules. -/
theorem c2_sarif_round_trip_amended (inputs : List LintrunnerResult) :
    (produce_sarif inputs).runs.length = 1
    ∧ ((produce_sarif inputs).runs.headD { rules := [], results := [] }).results
        = inputs.map resultOf
    ∧ ((produce_sarif inputs).runs.headD
          { rules := [], results := [] }).rules.map (fun ru => ru.id)
        = dedupKeys (inputs.map format_rule_name)
    ∧ (dedupKeys (inputs.map format_rule_name)).Nodup
    ∧ (∀ k, k ∈ dedupKeys (inputs.map format_rule_name)
        ↔ k ∈ inputs.map format_rule_name)
    ∧ (∀ k, findRule ((produce_sarif inputs).runs.headD
          { rules := [], results := [] }).rules k
        = (lastWithKey k inputs).map ruleOf)
    ∧ produce_sarif [] =
        { schema := "https://json.schemastore.org/sarif-2.1.0.json",
          version := "2.1.0", runs := [{ rules := [], results := [] }] } := by
  have hrun : (produce_sarif inputs).runs.headD { rules := [], results := [] } =
      { rules := (inputs.foldl produce_sarif_step ([], [])).1,
        results := (inputs.foldl produce_sarif_step ([], [])).2 } := rfl
  refine ⟨rfl, ?_, ?_, ?_, ?_, ?_, rfl⟩
  · rw [hrun]
    show (inputs.foldl produce_sarif_step ([], [])).2 = inputs.map resultOf
    rw [produce_sarif_fold_results]
    simp
  · rw [hrun]
    show ((inputs.foldl produce_sarif_step ([], [])).1).map (fun x => x.id) = _
    rw [produce_sarif_fold_ids]
    rfl
  · exact dedup_foldl_nodup (inputs.map format_rule_name) [] List.nodup_nil
  · intro k
    unfold dedupKeys
    rw [dedup_foldl_mem]
    simp
  · intro k
    rw [hrun]
    show findRule (inputs.foldl produce_sarif_step ([], [])).1 k = _
    rw [produce_sarif_fold_lookup]
    cases h : lastWithKey k inputs <;> simp [findRule]

/-- C7 counterexample: the legacy converter copy `tools/convert_to_sarif.py`
maps `advice` and `disabled` to `warning`, not to SARIF's informational
level `note` that the packaged converter uses. -/
theorem c7_legacy_advice_not_informational :
    legacy_severity_to_github_level "advice" = "warning"
    ∧ legacy_severity_to_github_level "disabled" = "warning"
    ∧ severity_to_github_level "advice" = "note"
    ∧ ("warning" : String) ≠ "note" := by
  refine ⟨rfl, rfl, rfl, ?_⟩
  decide

/-- C7 (amended): the packaged SARIF converter
(`lintrunner_adapters/tools/convert_to_sarif.py`) maps `advice` and
`disabled` both to the informational level `note` and passes `error` and
`warning` through unchanged; the legacy copy (`tools/convert_to_sarif.py`)
instead maps `advice` and `disabled` both to `warning`, passing `error`
and `warning` through. -/
theorem c7_level_mapping_amended :
    severity_to_github_level "advice" = "note"
    ∧ severity_to_github_level "disabled" = "note"
    ∧ severity_to_github_level "error" = "error"
    ∧ severity_to_github_level "warning" = "warning"
    ∧ legacy_severity_to_github_level "advice" = "warning"
    ∧ legacy_severity_to_github_level "disabled" = "warning"
    ∧ legacy_severity_to_github_level "error" = "error"
    ∧ legacy_severity_to_github_level "warning" = "warning" := by
  refine ⟨rfl, rfl, ?_, ?_, rfl, rfl, ?_, ?_⟩ <;> decide

/-- C10: the packaged SARIF converter computes `startLine` (resp.
`startColumn`) as the Python expression `line or 1` (resp. `char or 1`),
so a `0` or absent value becomes `1` and positive values pass through
unchanged. -/
theorem c10_zero_position_defaults (r : LintrunnerResult) :
    ((r.line = none ∨ r.line = some 0) → (resultOf r).startLine = 1)
    ∧ (∀ n : Nat, r.line = some n → 0 < n → (resultOf r).startLine = n)
    ∧ ((r.char = none ∨ r.char = some 0) → (resultOf r).startColumn = 1)
    ∧ (∀ n : Nat, r.char = some n → 0 < n → (resultOf r).startColumn = n) := by
  have hline : (resultOf r).startLine = orOne r.line := rfl
  have hchar : (resultOf r).startColumn = orOne r.char := rfl
  refine ⟨?_, ?_, ?_, ?_⟩
  · rintro (h | h) <;> rw [hline, h] <;> rfl
  · intro n h hn
    rw [hline, h]
    simp [orOne, Nat.pos_iff_ne_zero.mp hn]
  · rintro (h | h) <;> rw [hchar, h] <;> rfl
  · intro n h hn
    rw [hchar, h]
    simp [orOne, Nat.pos_iff_ne_zero.mp hn]

/-- A message with `line = 0` and a positive `char`, exercising both
defaulting and pass-through. -/
def c10Input : LintrunnerResult :=
  { path := some "t.py", line := some 0, char := some 7, code := "X",
    severity := "advice", name := "N", description := "d" }

/-- Witness for C10 at a concrete message: `line = 0` becomes
`startLine = 1` and `char = 7` passes through. -/
theorem c10_zero_position_defaults_witness :
    (resultOf c10Input).startLine = 1 ∧ (resultOf c10Input).startColumn = 7 :=
  ⟨(c10_zero_position_defaults c10Input).1 (Or.inr rfl),
   (c10_zero_position_defaults c10Input).2.2.2 7 rfl (by decide)⟩

/-- An absolute filesystem path, as its list of components. -/
abbrev FsPath := List String

/-- Render a path for a `LintMessage.path` field (`str(path)`). -/
def pathToString (p : FsPath) : String :=
  "/" ++ String.intercalate "/" p

/-- `pathlib.Path.parents`: the proper ancestor directories of a path,
nearest first. -/
def parentsOf (p : FsPath) : List FsPath :=
  ((List.range p.length).map (fun i => p.take i)).reverse

/-- `clippy_linter.is_relative_to(path, parent)`:
`path.relative_to(parent)` succeeds exactly when `parent` is a prefix. -/
def is_relative_to (path parentDir : FsPath) : Bool :=
  parentDir.isPrefixOf path

/-- `clippy_linter.find_cargo_root`: the first ancestor directory that
contains a `Cargo.toml` (the filesystem is modelled by `cargoDirs`, the
set of directories holding a `Cargo.toml`), returning that `Cargo.toml`
path. -/
def find_cargo_root (cargoDirs : List FsPath) (path : FsPath) : Option FsPath :=
  ((parentsOf path).find? (fun d => cargoDirs.contains d)).map
    (fun d => d ++ ["Cargo.toml"])

/-- One iteration of the `for filename in filenames` loop of
`clippy_linter.find_cargo_toml_files`: skip a file already under a known
`Cargo.toml` directory, else add its nearest root (set insertion). -/
def addCargoToml (cargoDirs : List FsPath) (acc : List FsPath)
    (filename : FsPath) : List FsPath :=
  if acc.any (fun cargoToml => is_relative_to filename cargoToml.dropLast) then acc
  else
    match find_cargo_root cargoDirs filename with
    | none => acc
    | some cargoToml =>
      if acc.contains cargoToml then acc else acc ++ [cargoToml]

/-- `clippy_linter.find_cargo_toml_files`. -/
def find_cargo_toml_files (cargoDirs : List FsPath)
    (filenames : List FsPath) : List FsPath :=
  filenames.foldl (addCargoToml cargoDirs) []

/-- One span of a clippy compiler message (`line_start`, `column_start`,
`file_name` relative to the `Cargo.toml` directory). -/
structure ClippySpan where
  lineStart : Option Nat
  columnStart : Option Nat
  fileName : FsPath
deriving DecidableEq, Repr

/-- `data["message"]` of a clippy JSON record: the diagnostic level
(absent when `message.get("level")` is missing), the rule code string
(absent when `message["code"]` is `None`), the spans and the rendered
text. -/
structure ClippyDiagnostic where
  level : Option String
  code : Option String
  spans : List ClippySpan
  rendered : String
deriving DecidableEq, Repr

/-- One parsed line of `cargo clippy --message-format=json` output, with
the presence flags the adapter's guards check. -/
structure ClippyRecord where
  reason : String
  hasTarget : Bool
  hasSrcPath : Bool
  message : Option ClippyDiagnostic
deriving DecidableEq, Repr

/-- `clippy_linter.LINTER_CODE`. -/
def CLIPPY_LINTER_CODE : String := "CLIPPY"

/-- `clippy_linter.format_lint_messages`: the rendered text in a code
fence. -/
def clippyRenderedDescription (rendered : String) : String :=
  "```\n" ++ rendered ++ "```"

/-- What the loop body of `clippy_linter.check_cargo_toml` does with one
record: `continue` on a failed guard or a filtered-out path, raise
`KeyError` on an unmapped severity level (the `SEVERITIES[...]` dict
subscript), or append one `LintMessage`. -/
inductive ClippyRecordAction
  | skip
  | keyError
  | emit (m : LintMessage)
deriving DecidableEq, Repr

/-- The loop body of `clippy_linter.check_cargo_toml`, guard by guard:
non-compiler-message reasons, missing `target`/`src_path`/`message`/
`code`/spans are skipped; the source path (the `Cargo.toml` directory
joined with the first span's file name) must be in the requested file
set, else the finding is suppressed; the severity is the
`SEVERITIES[level]` subscript. -/
def clippyRecordAction (cargoToml : FsPath) (filenames : List FsPath)
    (r : ClippyRecord) : ClippyRecordAction :=
  if r.reason ≠ "compiler-message" then ClippyRecordAction.skip
  else if r.hasTarget = false then ClippyRecordAction.skip
  else if r.hasSrcPath = false then ClippyRecordAction.skip
  else
    match r.message with
    | none => ClippyRecordAction.skip
    | some msg =>
      match msg.code with
      | none => ClippyRecordAction.skip
      | some codeStr =>
        match msg.spans with
        | [] => ClippyRecordAction.skip
        | firstSpan :: _ =>
          let srcPath := cargoToml.dropLast ++ firstSpan.fileName
          if srcPath ∉ filenames then ClippyRecordAction.skip
          else
            match clippySeverityLookup msg.level with
            | none => ClippyRecordAction.keyError
            | some sev =>
              ClippyRecordAction.emit
                { path := some (pathToString srcPath),
                  line := firstSpan.lineStart, char := firstSpan.columnStart,
                  code := CLIPPY_LINTER_CODE, severity := sev,
                  name := codeStr, original := none, replacement := none,
                  description := some (clippyRenderedDescription msg.rendered) }

/-- The parse loop of `clippy_linter.check_cargo_toml` over the decoded
stdout lines: collects the emitted messages in order; a `KeyError`
aborts the whole call (`Except.error`). -/
def check_cargo_toml_parse (cargoToml : FsPath) (filenames : List FsPath) :
    List ClippyRecord → Except String (List LintMessage)
  | [] => .ok []
  | r :: rest =>
    match clippyRecordAction cargoToml filenames r with
    | .skip => check_cargo_toml_parse cargoToml filenames rest
    | .keyError => .error "KeyError"
    | .emit m =>
      (check_cargo_toml_parse cargoToml filenames rest).map (fun msgs => m :: msgs)

/-- Outcome of the `run_command(["cargo", "clippy", ...])` call in
`clippy_linter.check_cargo_toml`: the parsed stdout records, or one of
the exceptions the source's `except` clauses handle.
`calledProcessError` is listed because the source has a handler for it,
although the call site leaves `check=False` and so can never produce
it (see `clippyRunReachable`). -/
inductive ClippyRunOutcome
  | ok (records : List ClippyRecord)
  | osError (desc : String)
  | calledProcessError (returncode : Int) (cmd stderr stdout : String)
deriving DecidableEq, Repr

/-- The outcomes the `run_command(["cargo", "clippy",
"--message-format=json"], retries=retries, ...)` call can actually
produce: `check` is left `False` (its default), so `subprocess.run`
never raises `CalledProcessError` — a nonzero cargo exit returns a
completed process whose stdout is parsed — and no `timeout` is passed,
so no `TimeoutExpired` arises either.  Only a completed process or an
`OSError` is reachable; the source's `except CalledProcessError`
handler is dead code at this call site. -/
def clippyRunReachable : ClippyRunOutcome → Prop
  | ClippyRunOutcome.ok _ => True
  | ClippyRunOutcome.osError _ => True
  | ClippyRunOutcome.calledProcessError _ _ _ _ => False

/-- `clippy_linter.check_cargo_toml`: an `OSError` yields one
`command-failed` message with the adapter's code and `path=None`; a
`CalledProcessError` would yield one `command-failed` message that — as
written in the source — carries code `"RUSTFMT"` (a branch that is
unreachable at the call site, since the run is made with
`check=False`); otherwise the stdout records are parsed. -/
def check_cargo_toml (cargoToml : FsPath) (filenames : List FsPath)
    (outcome : ClippyRunOutcome) : Except String (List LintMessage) :=
  match outcome with
  | .osError d =>
    .ok [{ path := none, line := none, char := none,
           code := CLIPPY_LINTER_CODE, severity := LintSeverity.error,
           name := "command-failed", original := none, replacement := none,
           description := some ("Failed due to OSError:\n" ++ d) }]
  | .calledProcessError rc cmd se so =>
    .ok [{ path := some (pathToString cargoToml), line := none, char := none,
           code := "RUSTFMT", severity := LintSeverity.error,
           name := "command-failed", original := none, replacement := none,
           description := some (commandFailedDescription rc cmd se so) }]
  | .ok records => check_cargo_toml_parse cargoToml filenames records


theorem mem_parentsOf_prefix {p d : FsPath} (h : d ∈ parentsOf p) :
    is_relative_to p d = true := by
  unfold parentsOf at h
  rw [List.mem_reverse] at h
  obtain ⟨i, _, hi⟩ := List.mem_map.mp h
  unfold is_relative_to
  rw [List.isPrefixOf_iff_prefix, ← hi]
  exact List.take_prefix i p

theorem find_cargo_root_prefix {cargoDirs : List FsPath} {f ct : FsPath}
    (h : find_cargo_root cargoDirs f = some ct) :
    is_relative_to f ct.dropLast = true := by
  unfold find_cargo_root at h
  cases hf : (parentsOf f).find? (fun d => cargoDirs.contains d) with
  | none => rw [hf] at h; exact absurd h (by simp)
  | some d =>
    rw [hf] at h
    have h' : d ++ ["Cargo.toml"] = ct := by simpa using h
    have hd := List.mem_of_find?_eq_some hf
    rw [← h']
    have hdrop : (d ++ ["Cargo.toml"]).dropLast = d := by simp
    rw [hdrop]
    exact mem_parentsOf_prefix hd

theorem addCargoToml_sub (cargoDirs : List FsPath) (acc : List FsPath)
    (f : FsPath) : acc ⊆ addCargoToml cargoDirs acc f := by
  unfold addCargoToml
  split
  · exact fun a ha => ha
  · cases find_cargo_root cargoDirs f with
    | none => exact fun a ha => ha
    | some ct =>
      show acc ⊆ if acc.contains ct = true then acc else acc ++ [ct]
      by_cases hc : acc.contains ct = true
      · rw [if_pos hc]
        exact fun a ha => ha
      · rw [if_neg hc]
        exact List.subset_append_left acc [ct]

theorem find_cargo_toml_foldl_sub (cargoDirs : List FsPath)
    (l : List FsPath) :
    ∀ acc : List FsPath, acc ⊆ l.foldl (addCargoToml cargoDirs) acc := by
  induction l with
  | nil => exact fun acc a ha => ha
  | cons g rest ih =>
    intro acc
    exact fun a ha => ih (addCargoToml cargoDirs acc g)
      (addCargoToml_sub cargoDirs acc g ha)

theorem addCargoToml_nodup (cargoDirs : List FsPath) (acc : List FsPath)
    (f : FsPath) (h : acc.Nodup) : (addCargoToml cargoDirs acc f).Nodup := by
  unfold addCargoToml
  split
  · exact h
  · cases find_cargo_root cargoDirs f with
    | none => exact h
    | some ct =>
      show (if acc.contains ct = true then acc else acc ++ [ct]).Nodup
      by_cases hmem : acc.contains ct = true
      · rw [if_pos hmem]; exact h
      · rw [if_neg hmem]
        have hnot : ct ∉ acc := by simpa using hmem
        simp [List.nodup_append, h, hnot]

theorem find_cargo_toml_foldl_nodup (cargoDirs : List FsPath)
    (l : List FsPath) :
    ∀ acc : List FsPath, acc.Nodup →
      (l.foldl (addCargoToml cargoDirs) acc).Nodup := by
  induction l with
  | nil => exact fun acc h => h
  | cons g rest ih =>
    intro acc h
    exact ih (addCargoToml cargoDirs acc g) (addCargoToml_nodup cargoDirs acc g h)

theorem addCargoToml_mem_cases {cargoDirs : List FsPath} {acc : List FsPath}
    {f ct : FsPath} (h : ct ∈ addCargoToml cargoDirs acc f) :
    ct ∈ acc ∨ find_cargo_root cargoDirs f = some ct := by
  unfold addCargoToml at h
  split at h
  · exact Or.inl h
  · cases hr : find_cargo_root cargoDirs f with
    | none => simp only [hr] at h; exact Or.inl h
    | some ct' =>
      simp only [hr] at h
      by_cases hc : acc.contains ct' = true
      · rw [if_pos hc] at h; exact Or.inl h
      · rw [if_neg hc] at h
        rcases List.mem_append.mp h with hmem | hmem
        · exact Or.inl hmem
        · right
          rw [List.mem_singleton.mp hmem]

theorem find_cargo_toml_foldl_sound {cargoDirs : List FsPath}
    (l : List FsPath) :
    ∀ acc ct, ct ∈ l.foldl (addCargoToml cargoDirs) acc →
      ct ∈ acc ∨ ∃ f ∈ l, find_cargo_root cargoDirs f = some ct := by
  induction l with
  | nil => exact fun acc ct h => Or.inl h
  | cons g rest ih =>
    intro acc ct h
    rcases ih (addCargoToml cargoDirs acc g) ct h with hacc | ⟨f, hf, hroot⟩
    · rcases addCargoToml_mem_cases hacc with hacc' | hroot
      · exact Or.inl hacc'
      · exact Or.inr ⟨g, List.mem_cons_self g rest, hroot⟩
    · exact Or.inr ⟨f, List.mem_cons_of_mem g hf, hroot⟩

theorem find_cargo_toml_foldl_cover {cargoDirs : List FsPath}
    (l : List FsPath) :
    ∀ acc f ct, f ∈ l → find_cargo_root cargoDirs f = some ct →
      ∃ ct' ∈ l.foldl (addCargoToml cargoDirs) acc,
        is_relative_to f ct'.dropLast = true := by
  induction l with
  | nil => intro _ _ _ h; exact absurd h (List.not_mem_nil _)
  | cons g rest ih =>
    intro acc f ct hf hroot
    rcases List.mem_cons.mp hf with rfl | hf'
    · by_cases hskip :
        acc.any (fun cargoToml => is_relative_to f cargoToml.dropLast)
      · obtain ⟨ct', hct', hrel⟩ := List.any_eq_true.mp hskip
        refine ⟨ct', ?_, hrel⟩
        exact find_cargo_toml_foldl_sub cargoDirs rest (addCargoToml cargoDirs acc f)
          (addCargoToml_sub cargoDirs acc f hct')
      · have hstep : ct ∈ addCargoToml cargoDirs acc f := by
          unfold addCargoToml
          rw [if_neg hskip]
          simp only [hroot]
          by_cases hc : acc.contains ct = true
          · rw [if_pos hc]; simpa using hc
          · rw [if_neg hc]
            exact List.mem_append.mpr (Or.inr (List.mem_singleton.mpr rfl))
        refine ⟨ct, ?_, find_cargo_root_prefix hroot⟩
        exact find_cargo_toml_foldl_sub cargoDirs rest
          (addCargoToml cargoDirs acc f) hstep
    · exact ih (addCargoToml cargoDirs acc g) f ct hf' hroot

theorem clippyRecordAction_emit {cargoToml : FsPath}
    {filenames : List FsPath} {r : ClippyRecord} {m : LintMessage}
    (h : clippyRecordAction cargoToml filenames r = ClippyRecordAction.emit m) :
    ∃ f ∈ filenames, m.path = some (pathToString f)
      ∧ m.code = CLIPPY_LINTER_CODE := by
  unfold clippyRecordAction at h
  by_cases h1 : r.reason ≠ "compiler-message"
  · rw [if_pos h1] at h; exact absurd h (by simp)
  rw [if_neg h1] at h
  by_cases h2 : r.hasTarget = false
  · rw [if_pos h2] at h; exact absurd h (by simp)
  rw [if_neg h2] at h
  by_cases h3 : r.hasSrcPath = false
  · rw [if_pos h3] at h; exact absurd h (by simp)
  rw [if_neg h3] at h
  cases hmsg : r.message with
  | none => simp [hmsg] at h
  | some msg =>
    simp only [hmsg] at h
    cases hcode : msg.code with
    | none => simp [hcode] at h
    | some codeStr =>
      simp only [hcode] at h
      cases hspans : msg.spans with
      | nil => simp [hspans] at h
      | cons firstSpan spanRest =>
        simp only [hspans] at h
        by_cases hmem : (cargoToml.dropLast ++ firstSpan.fileName) ∉ filenames
        · rw [if_pos hmem] at h; exact absurd h (by simp)
        rw [if_neg hmem] at h
        cases hsev : clippySeverityLookup msg.level with
        | none => simp [hsev] at h
        | some sev =>
          simp only [hsev] at h
          rw [ClippyRecordAction.emit.injEq] at h
          refine ⟨cargoToml.dropLast ++ firstSpan.fileName, not_not.mp hmem, ?_, ?_⟩
          · rw [← h]
          · rw [← h]

theorem check_cargo_toml_parse_filter (cargoToml : FsPath)
    (filenames : List FsPath) :
    ∀ (records : List ClippyRecord) (msgs : List LintMessage),
      check_cargo_toml_parse cargoToml filenames records = Except.ok msgs →
      ∀ m ∈ msgs, ∃ f ∈ filenames, m.path = some (pathToString f) := by
  intro records
  induction records with
  | nil =>
    intro msgs h m hm
    unfold check_cargo_toml_parse at h
    rw [Except.ok.injEq] at h
    rw [← h] at hm
    exact absurd hm (List.not_mem_nil m)
  | cons r rest ih =>
    intro msgs h m hm
    unfold check_cargo_toml_parse at h
    cases hact : clippyRecordAction cargoToml filenames r with
    | skip =>
      rw [hact] at h
      exact ih msgs h m hm
    | keyError => rw [hact] at h; exact absurd h (by simp)
    | emit m0 =>
      rw [hact] at h
      cases hrest : check_cargo_toml_parse cargoToml filenames rest with
      | error e => rw [hrest] at h; exact absurd h (by simp [Except.map])
      | ok msgs' =>
        rw [hrest] at h
        simp only [Except.map] at h
        rw [Except.ok.injEq] at h
        rw [← h] at hm
        rcases List.mem_cons.mp hm with rfl | hm'
        · obtain ⟨f, hf, hpath, _⟩ := clippyRecordAction_emit hact
          exact ⟨f, hf, hpath⟩
        · exact ih msgs' hrest m hm'

theorem check_cargo_toml_parse_code (cargoToml : FsPath)
    (filenames : List FsPath) :
    ∀ (records : List ClippyRecord) (msgs : List LintMessage),
      check_cargo_toml_parse cargoToml filenames records = Except.ok msgs →
      ∀ m ∈ msgs, m.code = CLIPPY_LINTER_CODE := by
  intro records
  induction records with
  | nil =>
    intro msgs h m hm
    unfold check_cargo_toml_parse at h
    rw [Except.ok.injEq] at h
    rw [← h] at hm
    exact absurd hm (List.not_mem_nil m)
  | cons r rest ih =>
    intro msgs h m hm
    unfold check_cargo_toml_parse at h
    cases hact : clippyRecordAction cargoToml filenames r with
    | skip =>
      rw [hact] at h
      exact ih msgs h m hm
    | keyError => rw [hact] at h; exact absurd h (by simp)
    | emit m0 =>
      rw [hact] at h
      cases hrest : check_cargo_toml_parse cargoToml filenames rest with
      | error e => rw [hrest] at h; exact absurd h (by simp [Except.map])
      | ok msgs' =>
        rw [hrest] at h
        simp only [Except.map] at h
        rw [Except.ok.injEq] at h
        rw [← h] at hm
        rcases List.mem_cons.mp hm with rfl | hm'
        · obtain ⟨f, hf, _, hcode⟩ := clippyRecordAction_emit hact
          exact hcode
        · exact ih msgs' hrest m hm'

/-- C6: every Message the clippy adapter can actually emit carries its
fixed code `LINTER_CODE = "CLIPPY"`.  The run is made with `check=False`,
so the `CalledProcessError` handler — the only place where another code,
`"RUSTFMT"`, is written — is dead code; on every reachable outcome (a
completed process, whether cargo exited zero or not, or an `OSError`)
both the synthetic failure message and every parsed finding use the
fixed `LINTER_CODE`. -/
theorem c6_clippy_code_constant (cargoToml : FsPath) (filenames : List FsPath)
    (outcome : ClippyRunOutcome) (hreach : clippyRunReachable outcome)
    (msgs : List LintMessage)
    (h : check_cargo_toml cargoToml filenames outcome = Except.ok msgs) :
    ∀ m ∈ msgs, m.code = CLIPPY_LINTER_CODE := by
  cases outcome with
  | calledProcessError rc cmd se so => exact False.elim hreach
  | osError d =>
    intro m hm
    unfold check_cargo_toml at h
    rw [Except.ok.injEq] at h
    rw [← h] at hm
    rw [List.mem_singleton.mp hm]
  | ok records =>
    exact check_cargo_toml_parse_code cargoToml filenames records msgs h

/-- The one message the clippy adapter emits when `cargo` cannot be
launched (written exactly as the `OSError` branch builds it). -/
def c6WitnessMessage : LintMessage :=
  { path := none, line := none, char := none,
    code := CLIPPY_LINTER_CODE, severity := LintSeverity.error,
    name := "command-failed", original := none, replacement := none,
    description := some ("Failed due to OSError:\n" ++ "cargo not found") }

/-- Witness for C6 at a concrete reachable outcome (an `OSError` while
launching cargo): the emitted message carries the fixed code `"CLIPPY"`. -/
theorem c6_clippy_code_constant_witness :
    c6WitnessMessage.code = CLIPPY_LINTER_CODE :=
  c6_clippy_code_constant ["ws", "Cargo.toml"] []
    (ClippyRunOutcome.osError "cargo not found") trivial [c6WitnessMessage] rfl
    c6WitnessMessage (List.mem_singleton.mpr rfl)

/-- The directories holding a `Cargo.toml` in the counterexample
filesystem: nested projects at `/a` and `/a/b/c`. -/
def c8CargoDirs : List FsPath := [["a"], ["a", "b", "c"]]

/-- The requested files: `/a/b/f1` (nearest root `/a`) and `/a/b/c/f2`
(nearest root `/a/b/c`). -/
def c8Files : List FsPath := [["a", "b", "f1"], ["a", "b", "c", "f2"]]

/-- C8 counterexample: after `/a/b/f1` discovers the root `/a/Cargo.toml`,
the file `/a/b/c/f2` is skipped because it lies under `/a` — although its
own nearest enclosing `Cargo.toml` is `/a/b/c/Cargo.toml`, which is never
discovered.  The adapter does not locate the nearest root of every input
path. -/
theorem c8_nested_nearest_root_missed :
    find_cargo_toml_files c8CargoDirs c8Files = [["a", "Cargo.toml"]]
    ∧ find_cargo_root c8CargoDirs ["a", "b", "c", "f2"] =
        some ["a", "b", "c", "Cargo.toml"]
    ∧ (["a", "b", "c", "Cargo.toml"] : FsPath) ∉
        find_cargo_toml_files c8CargoDirs c8Files := by
  refine ⟨rfl, rfl, ?_⟩
  decide

/-- C8 (amended): the clippy adapter walks ancestor directories for
`Cargo.toml` markers and deduplicates the discovered roots (the result
list holds no duplicates, and every entry is the nearest root of some
requested file); every requested file whose ancestors hold a root lies
under some discovered root (though — as the counterexample shows — not
necessarily under its own nearest root when projects are nested); and
every finding it emits resolves to a path in the originally requested
file set (findings for other files are suppressed). -/
theorem c8_project_root_grouping_amended :
    (∀ (cargoDirs filenames : List FsPath),
        (find_cargo_toml_files cargoDirs filenames).Nodup)
    ∧ (∀ (cargoDirs filenames : List FsPath) (ct : FsPath),
        ct ∈ find_cargo_toml_files cargoDirs filenames →
        ∃ f ∈ filenames, find_cargo_root cargoDirs f = some ct)
    ∧ (∀ (cargoDirs filenames : List FsPath) (f ct : FsPath),
        f ∈ filenames → find_cargo_root cargoDirs f = some ct →
        ∃ ct' ∈ find_cargo_toml_files cargoDirs filenames,
          is_relative_to f ct'.dropLast = true)
    ∧ (∀ (cargoToml : FsPath) (filenames : List FsPath)
        (records : List ClippyRecord) (msgs : List LintMessage),
        check_cargo_toml cargoToml filenames (ClippyRunOutcome.ok records) =
          Except.ok msgs →
        ∀ m ∈ msgs, ∃ f ∈ filenames, m.path = some (pathToString f)) := by
  refine ⟨?_, ?_, ?_, ?_⟩
  · intro cargoDirs filenames
    exact find_cargo_toml_foldl_nodup cargoDirs filenames [] List.nodup_nil
  · intro cargoDirs filenames ct h
    rcases find_cargo_toml_foldl_sound filenames [] ct h with hnil | hfound
    · exact absurd hnil (List.not_mem_nil ct)
    · exact hfound
  · intro cargoDirs filenames f ct hf hroot
    exact find_cargo_toml_foldl_cover filenames [] f ct hf hroot
  · intro cargoToml filenames records msgs h
    exact check_cargo_toml_parse_filter cargoToml filenames records msgs h

/-- A compiler-message record whose span resolves to the requested file
`/a/src/main.rs`. -/
def c8Record : ClippyRecord :=
  { reason := "compiler-message", hasTarget := true, hasSrcPath := true,
    message := some
      { level := some "warning", code := some "clippy::needless_return",
        spans := [{ lineStart := some 3, columnStart := some 5,
                    fileName := ["src", "main.rs"] }],
        rendered := "warning: unneeded return statement" } }

/-- The one message the parse loop emits for `c8Record` under the root
`/a/Cargo.toml`. -/
def c8WitnessMessage : LintMessage :=
  { path := some "/a/src/main.rs", line := some 3, char := some 5,
    code := "CLIPPY", severity := LintSeverity.warning,
    name := "clippy::needless_return", original := none,
    replacement := none,
    description := some "```\nwarning: unneeded return statement```" }

/-- Witness for C8 (amended) at the concrete counterexample filesystem
and a concrete parsed record. -/
theorem c8_project_root_grouping_amended_witness :
    (find_cargo_toml_files c8CargoDirs c8Files).Nodup
    ∧ (∃ f ∈ c8Files, find_cargo_root c8CargoDirs f = some ["a", "Cargo.toml"])
    ∧ (∃ ct' ∈ find_cargo_toml_files c8CargoDirs c8Files,
        is_relative_to ["a", "b", "c", "f2"] ct'.dropLast = true)
    ∧ (∀ m ∈ [c8WitnessMessage],
        ∃ f ∈ [(["a", "src", "main.rs"] : FsPath)],
          m.path = some (pathToString f)) :=
  ⟨c8_project_root_grouping_amended.1 c8CargoDirs c8Files,
   c8_project_root_grouping_amended.2.1 c8CargoDirs c8Files ["a", "Cargo.toml"]
     (by decide),
   c8_project_root_grouping_amended.2.2.1 c8CargoDirs c8Files
     ["a", "b", "c", "f2"] ["a", "b", "c", "Cargo.toml"] (by decide) rfl,
   c8_project_root_grouping_amended.2.2.2 ["a", "Cargo.toml"]
     [["a", "src", "main.rs"]] [c8Record] [c8WitnessMessage] rfl⟩
